import Mathlib

/-!
Verification of the ShadowPool sealed-order dark pool contract
(`ShadowPool.sol`): order pool, match trigger, and the decryption
callback that matches, clears, settles and refunds.

The contract is shallowly embedded: `uint256` becomes `Nat` (no
arithmetic in the contract can overflow on the inputs considered, and
Solidity 0.8 reverts on overflow rather than wrapping), storage
mappings become total functions with the zero-initialised default,
storage arrays become lists, token transfers become an explicit log of
`Transfer` records, and reverts become `Except` errors.  The
`while` matching loop of `onDecrypt` is embedded with an explicit fuel
argument; every iteration of the source loop advances `bi + si` by at
least one, so the fuel `buyCount + sellCount` supplied by `onDecrypt`
is never exhausted (`matchLoop_fuel_stable` below makes this exact).
-/

namespace ShadowPool

/-- Order lifecycle status, from the `OrderStatus` enum. -/
inductive OrderStatus where
  | PENDING
  | MATCHED
  | PARTIALLY_MATCHED
  | CANCELLED
  | REFUNDED
  deriving DecidableEq, Repr

/-- `CTX_GAS_PAYMENT = 0.06 ether`, in wei. -/
def CTX_GAS_PAYMENT : Nat := 60000000000000000

/-- `MAX_ORDERS_PER_MATCH = 10`. -/
def MAX_ORDERS_PER_MATCH : Nat := 10

/-- `PRICE_PRECISION = 1e6` (6-decimal fixed-point prices). -/
def PRICE_PRECISION : Nat := 1000000

/-- `DECIMAL_SCALE = 1e12 = 10^(baseDecimals - quoteDecimals)`. -/
def DECIMAL_SCALE : Nat := 1000000000000

/-- The `Order` struct.  Addresses are embedded as `Nat` (0 is the zero
address used as the mapping default); the encrypted payload only
matters through its emptiness, so it is a list of bytes-as-`Nat`. -/
structure Order where
  trader : Nat
  isBuy : Bool
  deposit : Nat
  encryptedOrder : List Nat
  status : OrderStatus
  createdAt : Nat
  settledPrice : Nat
  settledAmount : Nat
  deriving DecidableEq, Repr

/-- Default value of the `orders` mapping (all fields zero,
status = enum value 0 = `PENDING`). -/
def emptyOrder : Order :=
  { trader := 0, isBuy := false, deposit := 0, encryptedOrder := [],
    status := .PENDING, createdAt := 0, settledPrice := 0, settledAmount := 0 }

/-- The `Settlement` struct. -/
structure Settlement where
  clearingPrice : Nat
  matchedVolume : Nat
  totalTrades : Nat
  timestamp : Nat
  matchedOrderIds : List Nat
  deriving DecidableEq, Repr

/-- Default value of the `settlements` mapping. -/
def emptySettlement : Settlement :=
  { clearingPrice := 0, matchedVolume := 0, totalTrades := 0,
    timestamp := 0, matchedOrderIds := [] }

/-- The contract's storage. -/
structure PoolState where
  nextOrderId : Nat
  orders : Nat → Order
  pendingBuyOrderIds : List Nat
  pendingSellOrderIds : List Nat
  nextSettlementId : Nat
  settlements : Nat → Settlement
  totalPendingBuys : Nat
  totalPendingSells : Nat
  totalBuyDeposits : Nat
  totalSellDeposits : Nat
  isMatching : Bool
  userOrders : Nat → List Nat

/-- The contract's custom errors (reverts). -/
inductive PoolError where
  | InvalidDeposit
  | InvalidEncryptedOrder
  | OrderNotFound
  | NotOrderOwner
  | OrderNotPending
  | NoPendingOrders
  | AlreadyMatching
  | InsufficientCTXPayment
  | TooManyOrders
  deriving DecidableEq, Repr

/-- One `safeTransfer` out of custody: recipient and amount.  Which
asset moved is determined by which log (base or quote) the record is
appended to. -/
structure Transfer where
  recipient : Nat
  amount : Nat
  deriving DecidableEq, Repr

/-- `submitBuyOrder`: deposit quote tokens, create a Pending buy order,
append it to the buy-side pending set, bump the aggregates. -/
def submitBuyOrder (s : PoolState) (sender : Nat) (encrypted : List Nat)
    (deposit : Nat) (now : Nat) : Except PoolError (PoolState × Nat) :=
  if encrypted = [] then .error .InvalidEncryptedOrder
  else if deposit = 0 then .error .InvalidDeposit
  else
    let orderId := s.nextOrderId
    let o : Order :=
      { trader := sender, isBuy := true, deposit := deposit,
        encryptedOrder := encrypted, status := .PENDING, createdAt := now,
        settledPrice := 0, settledAmount := 0 }
    .ok ({ s with
            nextOrderId := orderId + 1,
            orders := Function.update s.orders orderId o,
            pendingBuyOrderIds := s.pendingBuyOrderIds ++ [orderId],
            userOrders := Function.update s.userOrders sender
              (s.userOrders sender ++ [orderId]),
            totalPendingBuys := s.totalPendingBuys + 1,
            totalBuyDeposits := s.totalBuyDeposits + deposit },
         orderId)

/-- `submitSellOrder`: deposit base tokens, create a Pending sell order,
append it to the sell-side pending set, bump the aggregates. -/
def submitSellOrder (s : PoolState) (sender : Nat) (encrypted : List Nat)
    (deposit : Nat) (now : Nat) : Except PoolError (PoolState × Nat) :=
  if encrypted = [] then .error .InvalidEncryptedOrder
  else if deposit = 0 then .error .InvalidDeposit
  else
    let orderId := s.nextOrderId
    let o : Order :=
      { trader := sender, isBuy := false, deposit := deposit,
        encryptedOrder := encrypted, status := .PENDING, createdAt := now,
        settledPrice := 0, settledAmount := 0 }
    .ok ({ s with
            nextOrderId := orderId + 1,
            orders := Function.update s.orders orderId o,
            pendingSellOrderIds := s.pendingSellOrderIds ++ [orderId],
            userOrders := Function.update s.userOrders sender
              (s.userOrders sender ++ [orderId]),
            totalPendingSells := s.totalPendingSells + 1,
            totalSellDeposits := s.totalSellDeposits + deposit },
         orderId)

/-- `_removePendingOrder`: find the first index holding `orderId`,
overwrite it with the last element, pop the last element. -/
def removePendingOrder (arr : List Nat) (orderId : Nat) : List Nat :=
  match arr.findIdx? (fun x => x == orderId) with
  | none => arr
  | some i => (arr.set i (arr.getLastD 0)).dropLast

/-- `cancelOrder`: owner-only, Pending-only; refunds the full deposit in
the order's funding asset, decrements the side's aggregates and removes
the id from the side's pending set.  Note the only status guard is
`status != PENDING`; there is no check of the `isMatching` flag. -/
def cancelOrder (s : PoolState) (sender : Nat) (orderId : Nat) :
    Except PoolError (PoolState × Transfer) :=
  let o := s.orders orderId
  if o.trader = 0 then .error .OrderNotFound
  else if o.trader ≠ sender then .error .NotOrderOwner
  else if o.status ≠ .PENDING then .error .OrderNotPending
  else
    let orders' := Function.update s.orders orderId { o with status := .CANCELLED }
    if o.isBuy then
      .ok ({ s with
              orders := orders',
              totalPendingBuys := s.totalPendingBuys - 1,
              totalBuyDeposits := s.totalBuyDeposits - o.deposit,
              pendingBuyOrderIds := removePendingOrder s.pendingBuyOrderIds orderId },
           { recipient := sender, amount := o.deposit })
    else
      .ok ({ s with
              orders := orders',
              totalPendingSells := s.totalPendingSells - 1,
              totalSellDeposits := s.totalSellDeposits - o.deposit,
              pendingSellOrderIds := removePendingOrder s.pendingSellOrderIds orderId },
           { recipient := sender, amount := o.deposit })

/-- `cancelOrder` as a state transformer: a revert leaves the state as
it was. -/
def execCancel (s : PoolState) (sender orderId : Nat) : PoolState :=
  match cancelOrder s sender orderId with
  | .ok (s', _) => s'
  | .error _ => s

/-- `triggerMatch`: guards in source order (`AlreadyMatching`,
`InsufficientCTXPayment`, `NoPendingOrders`, `TooManyOrders`); on
success sets the in-flight flag and allocates the next settlement id.
The CTX submission itself is the external oracle call and has no
storage effect. -/
def triggerMatch (s : PoolState) (msgValue : Nat) :
    Except PoolError (PoolState × Nat) :=
  if s.isMatching then .error .AlreadyMatching
  else if msgValue < CTX_GAS_PAYMENT then .error .InsufficientCTXPayment
  else if s.pendingBuyOrderIds.length = 0 ∨ s.pendingSellOrderIds.length = 0 then
    .error .NoPendingOrders
  else if MAX_ORDERS_PER_MATCH <
      s.pendingBuyOrderIds.length + s.pendingSellOrderIds.length then
    .error .TooManyOrders
  else
      .ok ({ s with
              isMatching := true,
              nextSettlementId := s.nextSettlementId + 1 },
           s.nextSettlementId)

/-- `triggerMatch` as a state transformer: a revert leaves the state as
it was. -/
def execTrigger (s : PoolState) (msgValue : Nat) : PoolState :=
  match triggerMatch s msgValue with
  | .ok (s', _) => s'
  | .error _ => s

/-- One decrypted order inside `onDecrypt`: the pending-array order id
together with its decrypted price and (remaining) amount.  The source
keeps these in three parallel arrays (`ids`, `prices`, `amounts`) whose
entries always move together. -/
structure DecEntry where
  oid : Nat
  price : Nat
  amount : Nat
  deriving DecidableEq, Repr

/-- One matched pair, as recorded by the pair of `OrderFilled` events
and the `matchedIds` entries of a loop iteration that found
`matchAmount > 0`. -/
structure Trade where
  buyOrderId : Nat
  sellOrderId : Nat
  price : Nat
  amount : Nat
  deriving DecidableEq, Repr

/-- The insertion step of `_sortDescending`: the key walks left past
entries with strictly smaller price, i.e. it is inserted before the
first strictly smaller entry.  Equal prices keep their relative order. -/
def insertDescending (x : DecEntry) : List DecEntry → List DecEntry
  | [] => [x]
  | y :: ys => if y.price < x.price then x :: y :: ys else y :: insertDescending x ys

/-- `_sortDescending`: insertion sort, processing positions left to
right, each inserted into the sorted prefix. -/
def sortDescending (l : List DecEntry) : List DecEntry :=
  l.foldl (fun acc x => insertDescending x acc) []

/-- The insertion step of `_sortAscending`: the key walks left past
entries with strictly greater price. -/
def insertAscending (x : DecEntry) : List DecEntry → List DecEntry
  | [] => [x]
  | y :: ys => if x.price < y.price then x :: y :: ys else y :: insertAscending x ys

/-- `_sortAscending`: insertion sort ascending by price, stable. -/
def sortAscending (l : List DecEntry) : List DecEntry :=
  l.foldl (fun acc x => insertAscending x acc) []

/-- The mutable data of the matching loop other than the two pointers:
the orders mapping, the running `clearingPrice`, `totalMatchedVolume`,
`totalTrades` and `matchedIds` accumulators, the recorded trades, and
the transfer logs of both assets. -/
structure MatchAcc where
  orders : Nat → Order
  clearingPrice : Nat
  totalMatchedVolume : Nat
  totalTrades : Nat
  matchedIds : List Nat
  trades : List Trade
  outBase : List Transfer
  outQuote : List Transfer

/-- The `while (bi < buyCount && si < sellCount)` loop of `onDecrypt`.
The lists hold the entries at and beyond the two pointers (the head is
the pointer position, with its current remaining amount); advancing a
pointer drops the head.  `fuel` bounds the iteration count; each source
iteration advances `bi + si` by at least one, so `onDecrypt` passes
`buyCount + sellCount` and the bound is never hit (see
`matchLoop_fuel_stable`).  Returns the accumulator and the entries at
or beyond the final pointers. -/
def matchLoop : Nat → MatchAcc → List DecEntry → List DecEntry →
    MatchAcc × List DecEntry × List DecEntry
  | _, acc, [], sells => (acc, [], sells)
  | _, acc, b :: bs, [] => (acc, b :: bs, [])
  | 0, acc, buys, sells => (acc, buys, sells)
  | fuel + 1, acc, b :: bs, s :: ss =>
    if b.price < s.price then (acc, b :: bs, s :: ss)
    else
      let cp := (b.price + s.price) / 2
      let q := if b.amount < s.amount then b.amount else s.amount
      if q = 0 then
        matchLoop fuel { acc with clearingPrice := cp } bs ss
      else
        let cost := q * cp / (PRICE_PRECISION * DECIMAL_SCALE)
        let buyOrder := acc.orders b.oid
        let sellOrder := acc.orders s.oid
        let orders1 := Function.update acc.orders b.oid
          { buyOrder with settledPrice := cp, settledAmount := q, status := .MATCHED }
        let orders2 := Function.update orders1 s.oid
          { sellOrder with settledPrice := cp, settledAmount := q, status := .MATCHED }
        let outBase1 := acc.outBase ++ [{ recipient := buyOrder.trader, amount := q }]
        let outQuote1 := acc.outQuote ++ [{ recipient := sellOrder.trader, amount := cost }]
        let outQuote2 :=
          if cost < buyOrder.deposit then
            outQuote1 ++ [{ recipient := buyOrder.trader, amount := buyOrder.deposit - cost }]
          else outQuote1
        let outBase2 :=
          if q < sellOrder.deposit then
            outBase1 ++ [{ recipient := sellOrder.trader, amount := sellOrder.deposit - q }]
          else outBase1
        let acc' : MatchAcc :=
          { orders := orders2,
            clearingPrice := cp,
            totalMatchedVolume := acc.totalMatchedVolume + q,
            totalTrades := acc.totalTrades + 1,
            matchedIds := acc.matchedIds ++ [b.oid, s.oid],
            trades := acc.trades ++
              [{ buyOrderId := b.oid, sellOrderId := s.oid, price := cp, amount := q }],
            outBase := outBase2,
            outQuote := outQuote2 }
        let bs' := if b.amount - q = 0 then bs
                   else { b with amount := b.amount - q } :: bs
        let ss' := if s.amount - q = 0 then ss
                   else { s with amount := s.amount - q } :: ss
        matchLoop fuel acc' bs' ss'

/-- The two refund loops at the end of `onDecrypt`: every entry at or
beyond the final pointer whose order is still `PENDING` becomes
`REFUNDED` and its full deposit is transferred back. -/
def refundOrders (orders : Nat → Order) : List DecEntry → (Nat → Order) × List Transfer
  | [] => (orders, [])
  | e :: es =>
    let o := orders e.oid
    if o.status = .PENDING then
      let r := refundOrders (Function.update orders e.oid { o with status := .REFUNDED }) es
      (r.1, { recipient := o.trader, amount := o.deposit } :: r.2)
    else
      refundOrders orders es

/-- Pair the pending order ids with their decrypted `(price, amount)`
payloads positionally, as the decode loops of `onDecrypt` do. -/
def toEntries (ids : List Nat) (dec : List (Nat × Nat)) : List DecEntry :=
  (ids.zip dec).map fun p => { oid := p.1, price := p.2.1, amount := p.2.2 }

/-- Result of the `onDecrypt` callback: the new storage, the two
transfer logs (base = DARK, quote = USDC) in emission order, and the
list of recorded trades. -/
structure SettleResult where
  state : PoolState
  outBase : List Transfer
  outQuote : List Transfer
  trades : List Trade

/-- `onDecrypt`: decode (here: zip ids with decrypted pairs), sort the
buy side descending and the sell side ascending by price, run the
matching loop, refund the leftovers, store the settlement record,
clear the pending pool and the in-flight flag.  `buyDec`/`sellDec` are
the decrypted `(price, amount)` pairs in the split the plaintext
`buyCount` induces; `now` is `block.timestamp`. -/
def onDecrypt (s : PoolState) (buyDec sellDec : List (Nat × Nat))
    (settlementId : Nat) (now : Nat) : SettleResult :=
  let buyEntries := sortDescending (toEntries s.pendingBuyOrderIds buyDec)
  let sellEntries := sortAscending (toEntries s.pendingSellOrderIds sellDec)
  let acc0 : MatchAcc :=
    { orders := s.orders, clearingPrice := 0, totalMatchedVolume := 0,
      totalTrades := 0, matchedIds := [], trades := [], outBase := [], outQuote := [] }
  let r := matchLoop (buyEntries.length + sellEntries.length) acc0 buyEntries sellEntries
  let acc := r.1
  let rb := refundOrders acc.orders r.2.1
  let rs := refundOrders rb.1 r.2.2
  let record : Settlement :=
    { clearingPrice := acc.clearingPrice, matchedVolume := acc.totalMatchedVolume,
      totalTrades := acc.totalTrades, timestamp := now,
      matchedOrderIds := acc.matchedIds }
  { state :=
      { s with
        orders := rs.1,
        settlements := Function.update s.settlements settlementId record,
        pendingBuyOrderIds := [],
        pendingSellOrderIds := [],
        totalPendingBuys := 0,
        totalPendingSells := 0,
        totalBuyDeposits := 0,
        totalSellDeposits := 0,
        isMatching := false },
    outBase := acc.outBase ++ rs.2,
    outQuote := acc.outQuote ++ rb.2,
    trades := acc.trades }

/-- `getSettlement`: the four scalar fields of a stored settlement. -/
def getSettlement (s : PoolState) (settlementId : Nat) : Nat × Nat × Nat × Nat :=
  let r := s.settlements settlementId
  (r.clearingPrice, r.matchedVolume, r.totalTrades, r.timestamp)

/-- `getSettlementCount`: returns `nextSettlementId`. -/
def getSettlementCount (s : PoolState) : Nat :=
  s.nextSettlementId

/-- Total amount of a transfer log. -/
def sumAmounts (l : List Transfer) : Nat :=
  (l.map Transfer.amount).sum

/-- Total amount a transfer log sends to one recipient. -/
def sumTo (a : Nat) (l : List Transfer) : Nat :=
  ((l.filter (fun t => t.recipient == a)).map Transfer.amount).sum

/-- Price of the last recorded trade, or `d` if none was recorded. -/
def lastTradePriceD (ts : List Trade) (d : Nat) : Nat :=
  match ts.getLast? with
  | some t => t.price
  | none => d

/-- A freshly deployed pool: all storage zero-initialised. -/
def baseState : PoolState :=
  { nextOrderId := 0, orders := fun _ => emptyOrder, pendingBuyOrderIds := [],
    pendingSellOrderIds := [], nextSettlementId := 0,
    settlements := fun _ => emptySettlement, totalPendingBuys := 0,
    totalPendingSells := 0, totalBuyDeposits := 0, totalSellDeposits := 0,
    isMatching := false, userOrders := fun _ => [] }

/-- A pending order as `submitBuyOrder`/`submitSellOrder` creates it. -/
def mkPending (trader : Nat) (isBuy : Bool) (deposit : Nat) : Order :=
  { trader := trader, isBuy := isBuy, deposit := deposit, encryptedOrder := [1],
    status := .PENDING, createdAt := 0, settledPrice := 0, settledAmount := 0 }

/-- The empty matching-loop accumulator `onDecrypt` starts from. -/
def accEmpty : MatchAcc :=
  { orders := fun _ => emptyOrder, clearingPrice := 0, totalMatchedVolume := 0,
    totalTrades := 0, matchedIds := [], trades := [], outBase := [], outQuote := [] }

/-- A triggered round holding one buy order (id 0, trader 1, 200 USDC
deposited) against two sell orders (id 1, trader 2, 4 DARK; id 2,
trader 3, 6 DARK).  The buy will be matched across two trades. -/
def stateDoubleFill : PoolState :=
  { baseState with
    nextOrderId := 3,
    orders := fun i =>
      if i = 0 then mkPending 1 true 200000000
      else if i = 1 then mkPending 2 false 4000000000000000000
      else if i = 2 then mkPending 3 false 6000000000000000000
      else emptyOrder,
    pendingBuyOrderIds := [0], pendingSellOrderIds := [1, 2],
    nextSettlementId := 1, totalPendingBuys := 1, totalPendingSells := 2,
    totalBuyDeposits := 200000000,
    totalSellDeposits := 10000000000000000000, isMatching := true }

/-- Settling the double-fill round: buy decrypts to (price 12.000000,
qty 10 DARK), sells to (10.000000, 4 DARK) and (11.000000, 6 DARK). -/
def doubleFillResult : SettleResult :=
  onDecrypt stateDoubleFill [(12000000, 10000000000000000000)]
    [(10000000, 4000000000000000000), (11000000, 6000000000000000000)] 0 0

/-- A round in flight (`isMatching = true`) whose snapshot holds buy
order 0 (trader 1, deposit 50) and sell order 1 (trader 2, deposit 5),
both still nominally `PENDING`. -/
def stateInFlightCancel : PoolState :=
  { baseState with
    nextOrderId := 2,
    orders := fun i =>
      if i = 0 then mkPending 1 true 50
      else if i = 1 then mkPending 2 false 5
      else emptyOrder,
    pendingBuyOrderIds := [0], pendingSellOrderIds := [1],
    nextSettlementId := 1, totalPendingBuys := 1, totalPendingSells := 1,
    totalBuyDeposits := 50, totalSellDeposits := 5, isMatching := true }

/-- A triggered round whose two orders decrypt to a crossing pair with
zero quantities (buy 12/0 vs sell 10/0). -/
def stateDegenerate : PoolState :=
  { baseState with
    nextOrderId := 2,
    orders := fun i =>
      if i = 0 then mkPending 1 true 100
      else if i = 1 then mkPending 2 false 100
      else emptyOrder,
    pendingBuyOrderIds := [0], pendingSellOrderIds := [1],
    nextSettlementId := 1, totalPendingBuys := 1, totalPendingSells := 1,
    totalBuyDeposits := 100, totalSellDeposits := 100, isMatching := true }

/-- Settling the degenerate round. -/
def degenerateResult : SettleResult :=
  onDecrypt stateDegenerate [(12, 0)] [(10, 0)] 0 0

/-- A triggered round with three buys submitted in order (ids 0, 1, 2 by
traders 1, 2, 3) and two sells (ids 3, 4 by traders 4, 5), realising the
spec's time-priority example: buy prices [10, 10, 8], sell prices
[9, 10], every quantity 5. -/
def stateTimePriority : PoolState :=
  { baseState with
    nextOrderId := 5,
    orders := fun i =>
      if i ≤ 2 then mkPending (i + 1) true 1000000
      else if i ≤ 4 then mkPending (i + 1) false 5
      else emptyOrder,
    pendingBuyOrderIds := [0, 1, 2], pendingSellOrderIds := [3, 4],
    nextSettlementId := 1, totalPendingBuys := 3, totalPendingSells := 2,
    totalBuyDeposits := 3000000, totalSellDeposits := 10, isMatching := true }

/-- Settling the time-priority round. -/
def timePriorityResult : SettleResult :=
  onDecrypt stateTimePriority [(10, 5), (10, 5), (8, 5)] [(9, 5), (10, 5)] 0 0

/-- A triggered round with one buy (id 0, trader 1, deposit `db` quote
units) against one sell (id 1, trader 2, deposit exactly 10 DARK). -/
def stateFullCross (db : Nat) : PoolState :=
  { baseState with
    nextOrderId := 2,
    orders := fun i =>
      if i = 0 then mkPending 1 true db
      else if i = 1 then mkPending 2 false 10000000000000000000
      else emptyOrder,
    pendingBuyOrderIds := [0], pendingSellOrderIds := [1],
    nextSettlementId := 1, totalPendingBuys := 1, totalPendingSells := 1,
    totalBuyDeposits := db, totalSellDeposits := 10000000000000000000,
    isMatching := true }

/-- Settling the full-cross round: buy (12.000000, 10 DARK) against
sell (10.000000, 10 DARK). -/
def fullCrossResult (db : Nat) : SettleResult :=
  onDecrypt (stateFullCross db) [(12000000, 10000000000000000000)]
    [(10000000, 10000000000000000000)] 0 0

/-- An idle pool with an empty buy side and one pending sell. -/
def stateEmptyBuys : PoolState :=
  { baseState with
    nextOrderId := 1,
    orders := fun i => if i = 0 then mkPending 2 false 5 else emptyOrder,
    pendingSellOrderIds := [0], totalPendingSells := 1, totalSellDeposits := 5 }

/-- A pool with a round already in flight. -/
def stateInFlight : PoolState :=
  { stateInFlightCancel with nextSettlementId := 1 }

/-- An idle pool with 6 pending buys and 6 pending sells (12 > 10). -/
def stateTooMany : PoolState :=
  { baseState with
    nextOrderId := 12,
    orders := fun i =>
      if i ≤ 5 then mkPending (i + 1) true 10
      else if i ≤ 11 then mkPending (i + 1) false 10
      else emptyOrder,
    pendingBuyOrderIds := [0, 1, 2, 3, 4, 5],
    pendingSellOrderIds := [6, 7, 8, 9, 10, 11],
    totalPendingBuys := 6, totalPendingSells := 6,
    totalBuyDeposits := 60, totalSellDeposits := 60 }

/-- An idle pool ready to trigger: one pending buy and one pending sell,
no settlement stored yet. -/
def stateTriggerReady : PoolState :=
  { baseState with
    nextOrderId := 2,
    orders := fun i =>
      if i = 0 then mkPending 1 true 50
      else if i = 1 then mkPending 2 false 5
      else emptyOrder,
    pendingBuyOrderIds := [0], pendingSellOrderIds := [1],
    totalPendingBuys := 1, totalPendingSells := 1,
    totalBuyDeposits := 50, totalSellDeposits := 5 }

/-- Membership in the descending insertion step. -/
theorem mem_insertDescending {y x : DecEntry} {l : List DecEntry} :
    y ∈ insertDescending x l ↔ y = x ∨ y ∈ l := by
  induction l with
  | nil => simp [insertDescending]
  | cons z zs ih =>
    by_cases h : z.price < x.price
    · simp only [insertDescending, if_pos h, List.mem_cons]
    · simp only [insertDescending, if_neg h, List.mem_cons, ih]
      tauto

/-- Membership in the ascending insertion step. -/
theorem mem_insertAscending {y x : DecEntry} {l : List DecEntry} :
    y ∈ insertAscending x l ↔ y = x ∨ y ∈ l := by
  induction l with
  | nil => simp [insertAscending]
  | cons z zs ih =>
    by_cases h : x.price < z.price
    · simp only [insertAscending, if_pos h, List.mem_cons]
    · simp only [insertAscending, if_neg h, List.mem_cons, ih]
      tauto

/-- The descending insertion step preserves descending order. -/
theorem pairwise_insertDescending {x : DecEntry} {l : List DecEntry}
    (h : l.Pairwise (fun a b => b.price ≤ a.price)) :
    (insertDescending x l).Pairwise (fun a b => b.price ≤ a.price) := by
  induction l with
  | nil => simp [insertDescending]
  | cons z zs ih =>
    rw [List.pairwise_cons] at h
    by_cases hz : z.price < x.price
    · simp only [insertDescending, if_pos hz]
      refine List.Pairwise.cons ?_ (List.Pairwise.cons h.1 h.2)
      intro b hb
      rcases List.mem_cons.mp hb with rfl | hb
      · exact Nat.le_of_lt hz
      · exact Nat.le_trans (h.1 b hb) (Nat.le_of_lt hz)
    · simp only [insertDescending, if_neg hz]
      refine List.Pairwise.cons ?_ (ih h.2)
      intro b hb
      rcases mem_insertDescending.mp hb with rfl | hb
      · exact Nat.le_of_not_lt hz
      · exact h.1 b hb

/-- The ascending insertion step preserves ascending order. -/
theorem pairwise_insertAscending {x : DecEntry} {l : List DecEntry}
    (h : l.Pairwise (fun a b => a.price ≤ b.price)) :
    (insertAscending x l).Pairwise (fun a b => a.price ≤ b.price) := by
  induction l with
  | nil => simp [insertAscending]
  | cons z zs ih =>
    rw [List.pairwise_cons] at h
    by_cases hz : x.price < z.price
    · simp only [insertAscending, if_pos hz]
      refine List.Pairwise.cons ?_ (List.Pairwise.cons h.1 h.2)
      intro b hb
      rcases List.mem_cons.mp hb with rfl | hb
      · exact Nat.le_of_lt hz
      · exact Nat.le_trans (Nat.le_of_lt hz) (h.1 b hb)
    · simp only [insertAscending, if_neg hz]
      refine List.Pairwise.cons ?_ (ih h.2)
      intro b hb
      rcases mem_insertAscending.mp hb with rfl | hb
      · exact Nat.le_of_not_lt hz
      · exact h.1 b hb

/-- Stability of the descending insertion step: inserting into a
descending-sorted list appends the key after every earlier entry of
equal price. -/
theorem filter_insertDescending (p : Nat) (x : DecEntry) {l : List DecEntry}
    (h : l.Pairwise (fun a b => b.price ≤ a.price)) :
    (insertDescending x l).filter (fun e => e.price == p) =
      l.filter (fun e => e.price == p) ++
        (if x.price == p then [x] else []) := by
  induction l with
  | nil =>
    simp only [insertDescending, List.filter_cons, List.filter_nil, List.nil_append]
  | cons z zs ih =>
    rw [List.pairwise_cons] at h
    by_cases hz : z.price < x.price
    · simp only [insertDescending, if_pos hz]
      by_cases hxp : x.price = p
      · have hnil : (z :: zs).filter (fun e => e.price == p) = [] := by
          rw [List.filter_eq_nil_iff]
          intro a ha
          rcases List.mem_cons.mp ha with rfl | ha
          · simp only [beq_iff_eq]
            omega
          · have := h.1 a ha
            simp only [beq_iff_eq]
            omega
        simp [List.filter_cons, hxp, hnil]
      · simp [List.filter_cons, hxp]
    · simp only [insertDescending, if_neg hz]
      rw [List.filter_cons, List.filter_cons, ih h.2]
      by_cases hzp : z.price = p <;> simp [hzp]

/-- Stability of the ascending insertion step. -/
theorem filter_insertAscending (p : Nat) (x : DecEntry) {l : List DecEntry}
    (h : l.Pairwise (fun a b => a.price ≤ b.price)) :
    (insertAscending x l).filter (fun e => e.price == p) =
      l.filter (fun e => e.price == p) ++
        (if x.price == p then [x] else []) := by
  induction l with
  | nil =>
    simp only [insertAscending, List.filter_cons, List.filter_nil, List.nil_append]
  | cons z zs ih =>
    rw [List.pairwise_cons] at h
    by_cases hz : x.price < z.price
    · simp only [insertAscending, if_pos hz]
      by_cases hxp : x.price = p
      · have hnil : (z :: zs).filter (fun e => e.price == p) = [] := by
          rw [List.filter_eq_nil_iff]
          intro a ha
          rcases List.mem_cons.mp ha with rfl | ha
          · simp only [beq_iff_eq]
            omega
          · have := h.1 a ha
            simp only [beq_iff_eq]
            omega
        simp [List.filter_cons, hxp, hnil]
      · simp [List.filter_cons, hxp]
    · simp only [insertAscending, if_neg hz]
      rw [List.filter_cons, List.filter_cons, ih h.2]
      by_cases hzp : z.price = p <;> simp [hzp]

/-- The left-to-right insertion fold behind `sortDescending`: the
accumulated list stays sorted, and for each price the filtered
subsequence is the accumulator's followed by the input's. -/
theorem sortDescending_aux (l : List DecEntry) :
    ∀ acc : List DecEntry, acc.Pairwise (fun a b => b.price ≤ a.price) →
      (l.foldl (fun a x => insertDescending x a) acc).Pairwise
        (fun a b => b.price ≤ a.price) ∧
      ∀ p, (l.foldl (fun a x => insertDescending x a) acc).filter
          (fun e => e.price == p) =
        acc.filter (fun e => e.price == p) ++ l.filter (fun e => e.price == p) := by
  induction l with
  | nil => exact fun acc h => ⟨h, fun p => by simp⟩
  | cons x xs ih =>
    intro acc h
    obtain ⟨hs, hf⟩ := ih (insertDescending x acc) (pairwise_insertDescending h)
    refine ⟨hs, fun p => ?_⟩
    rw [List.foldl_cons]
    rw [hf p, filter_insertDescending p x h, List.filter_cons]
    by_cases hxp : x.price = p <;> simp [hxp]

/-- The insertion fold behind `sortAscending`. -/
theorem sortAscending_aux (l : List DecEntry) :
    ∀ acc : List DecEntry, acc.Pairwise (fun a b => a.price ≤ b.price) →
      (l.foldl (fun a x => insertAscending x a) acc).Pairwise
        (fun a b => a.price ≤ b.price) ∧
      ∀ p, (l.foldl (fun a x => insertAscending x a) acc).filter
          (fun e => e.price == p) =
        acc.filter (fun e => e.price == p) ++ l.filter (fun e => e.price == p) := by
  induction l with
  | nil => exact fun acc h => ⟨h, fun p => by simp⟩
  | cons x xs ih =>
    intro acc h
    obtain ⟨hs, hf⟩ := ih (insertAscending x acc) (pairwise_insertAscending h)
    refine ⟨hs, fun p => ?_⟩
    rw [List.foldl_cons]
    rw [hf p, filter_insertAscending p x h, List.filter_cons]
    by_cases hxp : x.price = p <;> simp [hxp]

/-- `_sortDescending` is stable: for every price, the subsequence of
entries at that price is unchanged. -/
theorem sortDescending_stable (l : List DecEntry) (p : Nat) :
    (sortDescending l).filter (fun e => e.price == p) =
      l.filter (fun e => e.price == p) := by
  have h := (sortDescending_aux l [] List.Pairwise.nil).2 p
  simpa [sortDescending] using h

/-- `_sortAscending` is stable. -/
theorem sortAscending_stable (l : List DecEntry) (p : Nat) :
    (sortAscending l).filter (fun e => e.price == p) =
      l.filter (fun e => e.price == p) := by
  have h := (sortAscending_aux l [] List.Pairwise.nil).2 p
  simpa [sortAscending] using h

/-- Membership through the descending sort. -/
theorem mem_sortDescending {y : DecEntry} {l : List DecEntry} :
    y ∈ sortDescending l ↔ y ∈ l := by
  suffices h : ∀ acc, (y ∈ l.foldl (fun a x => insertDescending x a) acc ↔
      y ∈ acc ∨ y ∈ l) by
    simpa [sortDescending] using h []
  induction l with
  | nil => simp
  | cons x xs ih =>
    intro acc
    rw [List.foldl_cons, ih, mem_insertDescending]
    simp only [List.mem_cons]
    tauto

/-- Membership through the ascending sort. -/
theorem mem_sortAscending {y : DecEntry} {l : List DecEntry} :
    y ∈ sortAscending l ↔ y ∈ l := by
  suffices h : ∀ acc, (y ∈ l.foldl (fun a x => insertAscending x a) acc ↔
      y ∈ acc ∨ y ∈ l) by
    simpa [sortAscending] using h []
  induction l with
  | nil => simp
  | cons x xs ih =>
    intro acc
    rw [List.foldl_cons, ih, mem_insertAscending]
    simp only [List.mem_cons]
    tauto

/-- Extra fuel is irrelevant once the fuel covers the combined length
of the two sides: every loop iteration advances at least one pointer,
consuming at most `buys.length + sells.length` iterations. -/
theorem matchLoop_add_fuel :
    ∀ (fuel k : Nat) (acc : MatchAcc) (buys sells : List DecEntry),
      buys.length + sells.length ≤ fuel →
      matchLoop (fuel + k) acc buys sells = matchLoop fuel acc buys sells := by
  intro fuel
  induction fuel with
  | zero =>
    intro k acc buys sells hle
    rcases buys with _ | ⟨b, bs⟩
    · simp [matchLoop]
    rcases sells with _ | ⟨s, ss⟩
    · simp [matchLoop]
    simp only [List.length_cons] at hle
    omega
  | succ fuel ih =>
    intro k acc buys sells hle
    rcases buys with _ | ⟨b, bs⟩
    · simp [matchLoop]
    rcases sells with _ | ⟨s, ss⟩
    · simp [matchLoop]
    simp only [List.length_cons] at hle
    rw [Nat.add_right_comm]
    by_cases hlt : b.price < s.price
    · simp [matchLoop, hlt]
    by_cases hq : (if b.amount < s.amount then b.amount else s.amount) = 0
    · simp only [matchLoop, if_neg hlt, if_pos hq]
      exact ih k _ bs ss (by omega)
    · by_cases hbs : b.amount < s.amount
      · have hq2 : ¬ b.amount = 0 := fun h0 => hq (by rw [if_pos hbs]; exact h0)
        simp only [matchLoop, if_neg hlt, if_pos hbs, if_neg hq2, Nat.sub_self,
          if_pos]
        apply ih
        split <;> (try simp only [List.length_cons]) <;> omega
      · have hq2 : ¬ s.amount = 0 := fun h0 => hq (by rw [if_neg hbs]; exact h0)
        simp only [matchLoop, if_neg hlt, if_neg hbs, if_neg hq2, Nat.sub_self,
          if_pos]
        apply ih
        split <;> (try simp only [List.length_cons]) <;> omega

/-- The fuel `onDecrypt` supplies is enough: the loop's result is the
same for any fuel at least the combined list length, i.e. the embedded
loop terminates without hitting the fuel bound. -/
theorem matchLoop_fuel_stable (fuel : Nat) (acc : MatchAcc)
    (buys sells : List DecEntry)
    (hle : buys.length + sells.length ≤ fuel) :
    matchLoop fuel acc buys sells =
      matchLoop (buys.length + sells.length) acc buys sells := by
  obtain ⟨k, rfl⟩ : ∃ k, fuel = buys.length + sells.length + k :=
    ⟨fuel - (buys.length + sells.length), by omega⟩
  exact matchLoop_add_fuel (buys.length + sells.length) k acc buys sells
    (Nat.le_refl _)

/-- C1: the conservation claim fails on the code.  In the double-fill
round the single buy order (deposit 200.000000 USDC) is matched across
two trades; each trade refunds `deposit - cost` computed from the FULL
original deposit, so the round transfers out 400.000000 USDC
(44 + 156 + 69 + 131) against 200.000000 deposited on the quote side:
quantity transferred out plus refunds does not equal the swept
deposits. -/
theorem quote_conservation_fails_on_double_fill :
    doubleFillResult.trades =
      [{ buyOrderId := 0, sellOrderId := 1, price := 11000000,
         amount := 4000000000000000000 },
       { buyOrderId := 0, sellOrderId := 2, price := 11500000,
         amount := 6000000000000000000 }] ∧
    sumAmounts doubleFillResult.outQuote = 400000000 ∧
    (stateDoubleFill.pendingBuyOrderIds.map
      (fun i => (stateDoubleFill.orders i).deposit)).sum = 200000000 ∧
    sumAmounts doubleFillResult.outQuote ≠
      (stateDoubleFill.pendingBuyOrderIds.map
        (fun i => (stateDoubleFill.orders i).deposit)).sum := by
  refine ⟨by decide, by decide, by decide, by decide⟩

/-- C2: a cancel arriving while the round is in flight is NOT rejected.
Order 0 was swept into the in-flight round (`isMatching = true`,
status still `PENDING`), yet `cancelOrder` succeeds: it refunds the
deposit, cancels the order and mutates the pending pool. -/
theorem cancel_during_matching_succeeds :
    stateInFlightCancel.isMatching = true ∧
    (stateInFlightCancel.orders 0).status = OrderStatus.PENDING ∧
    cancelOrder stateInFlightCancel 1 0 =
      .ok (execCancel stateInFlightCancel 1 0, { recipient := 1, amount := 50 }) ∧
    ((execCancel stateInFlightCancel 1 0).orders 0).status = OrderStatus.CANCELLED ∧
    (execCancel stateInFlightCancel 1 0).totalPendingBuys = 0 ∧
    (execCancel stateInFlightCancel 1 0).pendingBuyOrderIds = [] ∧
    stateInFlightCancel.totalPendingBuys = 1 := by
  refine ⟨rfl, by decide, rfl, by decide, by decide, by decide, by decide⟩

/-- C3 counterexample: on the crossing pair buy (12, qty 0) versus
sell (10, qty 5), only the buy side is exhausted, yet the loop advances
BOTH pointers: the sell with remaining quantity 5 is skipped past
(final rest of the sell side is empty) and no trade with the next buy
(12, qty 5) is ever recorded, contradicting "only the pointer of the
side whose remaining quantity is exhausted is advanced". -/
theorem zero_qty_pair_advances_both_pointers :
    (matchLoop 3 accEmpty
        [{ oid := 0, price := 12, amount := 0 },
         { oid := 1, price := 12, amount := 5 }]
        [{ oid := 2, price := 10, amount := 5 }]).2.2 = [] ∧
    (matchLoop 3 accEmpty
        [{ oid := 0, price := 12, amount := 0 },
         { oid := 1, price := 12, amount := 5 }]
        [{ oid := 2, price := 10, amount := 5 }]).1.trades = [] ∧
    (matchLoop 3 accEmpty
        [{ oid := 0, price := 12, amount := 0 },
         { oid := 1, price := 12, amount := 5 }]
        [{ oid := 2, price := 10, amount := 5 }]).2.1 =
      [{ oid := 1, price := 12, amount := 5 }] := by
  refine ⟨by decide, by decide, by decide⟩

/-- C4 counterexample: the degenerate round records zero trades, yet the
stored clearing price is 11, not 0: `clearingPrice` is assigned the
midpoint of a crossing pair before the zero-quantity check skips the
pair. -/
theorem clearing_price_nonzero_with_no_trades :
    (degenerateResult.state.settlements 0).totalTrades = 0 ∧
    degenerateResult.trades = [] ∧
    (degenerateResult.state.settlements 0).clearingPrice = 11 ∧
    (degenerateResult.state.settlements 0).clearingPrice ≠ 0 := by
  refine ⟨by decide, by decide, by decide, by decide⟩

/-- C8: after any completed round, whatever was matched, both pending id
sets are empty, all four aggregate counters are zero and the in-flight
flag is cleared. -/
theorem pool_reset_after_round (s : PoolState) (buyDec sellDec : List (Nat × Nat))
    (settlementId now : Nat) :
    (onDecrypt s buyDec sellDec settlementId now).state.pendingBuyOrderIds = [] ∧
    (onDecrypt s buyDec sellDec settlementId now).state.pendingSellOrderIds = [] ∧
    (onDecrypt s buyDec sellDec settlementId now).state.totalPendingBuys = 0 ∧
    (onDecrypt s buyDec sellDec settlementId now).state.totalPendingSells = 0 ∧
    (onDecrypt s buyDec sellDec settlementId now).state.totalBuyDeposits = 0 ∧
    (onDecrypt s buyDec sellDec settlementId now).state.totalSellDeposits = 0 ∧
    (onDecrypt s buyDec sellDec settlementId now).state.isMatching = false :=
  ⟨rfl, rfl, rfl, rfl, rfl, rfl, rfl⟩

/-- C9: whenever no round is in flight and the attached payment is below
`CTX_GAS_PAYMENT` (0.06 ether), `triggerMatch` reverts with
`InsufficientCTXPayment` and changes no state — regardless of the
pending sets, so an underpaying call on an empty pool reports
`InsufficientCTXPayment`, not `NoPendingOrders`. -/
theorem insufficient_payment_guard (s : PoolState) (msgValue : Nat)
    (hM : s.isMatching = false) (hv : msgValue < CTX_GAS_PAYMENT) :
    triggerMatch s msgValue = .error .InsufficientCTXPayment ∧
    execTrigger s msgValue = s := by
  have h1 : triggerMatch s msgValue = .error .InsufficientCTXPayment := by
    simp [triggerMatch, hM, hv]
  exact ⟨h1, by simp [execTrigger, h1]⟩

/-- C9 witness: on the idle pool whose buy side is empty, an unpaid
trigger reports `InsufficientCTXPayment` (not `NoPendingOrders`) and
leaves the state unchanged. -/
theorem insufficient_payment_guard_witness :
    triggerMatch stateEmptyBuys 0 = .error .InsufficientCTXPayment ∧
    execTrigger stateEmptyBuys 0 = stateEmptyBuys :=
  insufficient_payment_guard stateEmptyBuys 0 rfl (by decide)

/-- C7 counterexample: the claim "fails with `NoPendingOrders` whenever
either side's pending set is empty (and no round is in flight)" is
false: an underpaying trigger on the idle pool with an empty buy side
fails with `InsufficientCTXPayment` instead, because the payment guard
runs first. -/
theorem underpaid_empty_pool_not_no_pending :
    stateEmptyBuys.isMatching = false ∧
    stateEmptyBuys.pendingBuyOrderIds = [] ∧
    triggerMatch stateEmptyBuys 0 = .error .InsufficientCTXPayment ∧
    PoolError.InsufficientCTXPayment ≠ PoolError.NoPendingOrders := by
  refine ⟨rfl, rfl, rfl, by decide⟩

/-- C7 amended: the guards of `triggerMatch` fire in source order —
`AlreadyMatching` whenever a round is in flight; `NoPendingOrders`
whenever additionally the payment is sufficient and either side's
pending set is empty; `TooManyOrders` whenever additionally both sides
are non-empty and the combined count exceeds `MAX_ORDERS_PER_MATCH`;
every failure leaves the state unchanged. -/
theorem trigger_guard_order (s : PoolState) (msgValue : Nat) :
    (s.isMatching = true → triggerMatch s msgValue = .error .AlreadyMatching) ∧
    (s.isMatching = false → CTX_GAS_PAYMENT ≤ msgValue →
      (s.pendingBuyOrderIds.length = 0 ∨ s.pendingSellOrderIds.length = 0) →
      triggerMatch s msgValue = .error .NoPendingOrders) ∧
    (s.isMatching = false → CTX_GAS_PAYMENT ≤ msgValue →
      s.pendingBuyOrderIds.length ≠ 0 → s.pendingSellOrderIds.length ≠ 0 →
      MAX_ORDERS_PER_MATCH <
        s.pendingBuyOrderIds.length + s.pendingSellOrderIds.length →
      triggerMatch s msgValue = .error .TooManyOrders) ∧
    (∀ e, triggerMatch s msgValue = .error e → execTrigger s msgValue = s) := by
  refine ⟨fun hM => by simp [triggerMatch, hM], ?_, ?_, ?_⟩
  · intro hM hv hempty
    rcases hempty with h | h <;> simp [triggerMatch, hM, Nat.not_lt.mpr hv, h]
  · intro hM hv hb hs hcap
    simp [triggerMatch, hM, Nat.not_lt.mpr hv, hb, hs, hcap]
  · intro e he
    simp [execTrigger, he]

/-- C7 witness: the three failure guards observed on concrete pools:
an in-flight pool, the idle empty-buy-side pool with sufficient
payment, and an idle pool holding 12 pending orders. -/
theorem trigger_guard_order_witness :
    triggerMatch stateInFlight 0 = .error .AlreadyMatching ∧
    triggerMatch stateEmptyBuys CTX_GAS_PAYMENT = .error .NoPendingOrders ∧
    triggerMatch stateTooMany CTX_GAS_PAYMENT = .error .TooManyOrders ∧
    execTrigger stateTooMany CTX_GAS_PAYMENT = stateTooMany := by
  refine ⟨(trigger_guard_order stateInFlight 0).1 rfl,
    (trigger_guard_order stateEmptyBuys CTX_GAS_PAYMENT).2.1 rfl
      (by decide) (by decide),
    (trigger_guard_order stateTooMany CTX_GAS_PAYMENT).2.2.1 rfl
      (by decide) (by decide) (by decide) (by decide),
    (trigger_guard_order stateTooMany CTX_GAS_PAYMENT).2.2.2 .TooManyOrders
      ((trigger_guard_order stateTooMany CTX_GAS_PAYMENT).2.2.1 rfl
        (by decide) (by decide) (by decide) (by decide))⟩

/-- C10: a successful `triggerMatch` allocates the round id and
increments `nextSettlementId` immediately (so `getSettlementCount`
already counts the in-flight round), sets the in-flight flag, and does
not touch the `settlements` mapping — hence, as long as the slot for
the new round still holds the zero-initialised default,
`getSettlement` for the in-flight round id returns the all-zero
record. -/
theorem settlement_count_incremented_at_trigger (s : PoolState) (msgValue : Nat)
    (p : PoolState × Nat) (h : triggerMatch s msgValue = .ok p) :
    p.2 = s.nextSettlementId ∧
    getSettlementCount p.1 = s.nextSettlementId + 1 ∧
    p.1.isMatching = true ∧
    p.1.settlements = s.settlements ∧
    (s.settlements s.nextSettlementId = emptySettlement →
      getSettlement p.1 s.nextSettlementId = (0, 0, 0, 0)) := by
  unfold triggerMatch at h
  split at h
  · exact absurd h (by simp)
  · split at h
    · exact absurd h (by simp)
    · split at h
      · exact absurd h (by simp)
      · split at h
        · exact absurd h (by simp)
        · injection h with h2
          subst h2
          refine ⟨rfl, rfl, rfl, rfl, fun h0 => ?_⟩
          simp [getSettlement, h0, emptySettlement]

/-- C10 witness: triggering the ready pool allocates round id 0, reports
a settlement count of 1 while the round is still in flight, and
`getSettlement 0` is all-zero until the callback runs. -/
theorem settlement_count_incremented_at_trigger_witness :
    getSettlementCount (execTrigger stateTriggerReady CTX_GAS_PAYMENT) = 1 ∧
    (execTrigger stateTriggerReady CTX_GAS_PAYMENT).isMatching = true ∧
    getSettlement (execTrigger stateTriggerReady CTX_GAS_PAYMENT) 0 =
      (0, 0, 0, 0) := by
  have H := settlement_count_incremented_at_trigger stateTriggerReady
    CTX_GAS_PAYMENT (execTrigger stateTriggerReady CTX_GAS_PAYMENT, 0) rfl
  exact ⟨H.2.1, H.2.2.1, H.2.2.2.2 rfl⟩

/-- C3 amended: on a crossing pair whose trade quantity
`min (remaining buy) (remaining sell)` is 0, no trade is recorded and
BOTH pointers are advanced (the head of each side is dropped), while
the clearing-price accumulator is still overwritten with the pair's
midpoint; the loop still terminates, since each iteration consumes
fuel and shortens the combined list length by two here. -/
theorem zero_qty_step_skips_both_sides (fuel : Nat) (acc : MatchAcc)
    (b s : DecEntry) (bs ss : List DecEntry)
    (hcross : ¬ b.price < s.price) (hq : min b.amount s.amount = 0) :
    matchLoop (fuel + 1) acc (b :: bs) (s :: ss) =
      matchLoop fuel { acc with clearingPrice := (b.price + s.price) / 2 } bs ss := by
  have hq' : (if b.amount < s.amount then b.amount else s.amount) = 0 := by
    split <;> omega
  simp [matchLoop, hcross, hq']

/-- C3 amended witness: the degenerate crossing pair buy (12, qty 0)
versus sell (10, qty 3) is skipped on both sides without a trade, the
clearing-price accumulator becoming 11. -/
theorem zero_qty_step_skips_both_sides_witness :
    matchLoop 1 accEmpty [{ oid := 0, price := 12, amount := 0 }]
        [{ oid := 1, price := 10, amount := 3 }] =
      matchLoop 0 { accEmpty with clearingPrice := 11 } [] [] :=
  zero_qty_step_skips_both_sides 0 accEmpty
    { oid := 0, price := 12, amount := 0 } { oid := 1, price := 10, amount := 3 }
    [] [] (by decide) (by decide)

/-- C6: the full-cross round — buy (12.000000, 10 DARK) against sell
(10.000000, 10 DARK) whose deposit equals the quantity sold — produces
exactly one trade at the truncated midpoint 11.000000 for the full
10 DARK; the buyer receives back its original deposit minus the cost
110.000000 USDC in quote tokens, and the seller is fully filled
(status `MATCHED`, settled amount 10 DARK) with zero base-token
refund. -/
theorem full_cross_example_settlement (db : Nat) (hdb : 110000000 ≤ db) :
    (fullCrossResult db).trades =
      [{ buyOrderId := 0, sellOrderId := 1, price := 11000000,
         amount := 10000000000000000000 }] ∧
    ((fullCrossResult db).state.settlements 0).clearingPrice = 11000000 ∧
    ((fullCrossResult db).state.settlements 0).totalTrades = 1 ∧
    ((fullCrossResult db).state.settlements 0).matchedVolume =
      10000000000000000000 ∧
    (fullCrossResult db).outBase =
      [{ recipient := 1, amount := 10000000000000000000 }] ∧
    (fullCrossResult db).outQuote =
      [{ recipient := 2, amount := 110000000 }] ++
        (if 110000000 < db then
          [{ recipient := 1, amount := db - 110000000 }]
        else []) ∧
    ((fullCrossResult db).state.orders 1).status = OrderStatus.MATCHED ∧
    ((fullCrossResult db).state.orders 1).settledAmount = 10000000000000000000 ∧
    ((fullCrossResult db).state.orders 0).status = OrderStatus.MATCHED := by
  rcases Nat.lt_or_ge 110000000 db with h | h
  · simp [fullCrossResult, onDecrypt, toEntries, sortDescending, sortAscending,
      insertDescending, insertAscending, matchLoop, refundOrders, stateFullCross,
      baseState, mkPending, emptyOrder, PRICE_PRECISION, DECIMAL_SCALE,
      Function.update, h]
  · have hdb' : db = 110000000 := by omega
    subst hdb'
    simp [fullCrossResult, onDecrypt, toEntries, sortDescending, sortAscending,
      insertDescending, insertAscending, matchLoop, refundOrders, stateFullCross,
      baseState, mkPending, emptyOrder, PRICE_PRECISION, DECIMAL_SCALE,
      Function.update]

/-- C6 witness: the full-cross facts at the concrete buyer deposit
120.000000 USDC: the buyer's refund transfer is 10.000000 USDC, i.e.
the original deposit minus the 110.000000 cost. -/
theorem full_cross_example_settlement_witness :
    (fullCrossResult 120000000).trades =
      [{ buyOrderId := 0, sellOrderId := 1, price := 11000000,
         amount := 10000000000000000000 }] ∧
    ((fullCrossResult 120000000).state.settlements 0).clearingPrice = 11000000 ∧
    ((fullCrossResult 120000000).state.settlements 0).totalTrades = 1 ∧
    ((fullCrossResult 120000000).state.settlements 0).matchedVolume =
      10000000000000000000 ∧
    (fullCrossResult 120000000).outBase =
      [{ recipient := 1, amount := 10000000000000000000 }] ∧
    (fullCrossResult 120000000).outQuote =
      [{ recipient := 2, amount := 110000000 }] ++
        (if 110000000 < 120000000 then
          [{ recipient := 1, amount := 120000000 - 110000000 }]
        else []) ∧
    ((fullCrossResult 120000000).state.orders 1).status = OrderStatus.MATCHED ∧
    ((fullCrossResult 120000000).state.orders 1).settledAmount =
      10000000000000000000 ∧
    ((fullCrossResult 120000000).state.orders 0).status = OrderStatus.MATCHED :=
  full_cross_example_settlement 120000000 (by decide)

/-- C5: both sorts are stable — for every price, the subsequence of
entries at that price keeps its snapshot order — and on the
time-priority round (buy prices [10, 10, 8] in arrival order for ids
0, 1, 2 against sells [9, 10] for ids 3, 4, quantities 5) the first
recorded trade pairs the first-submitted price-10 buy (id 0) with the
price-9 sell (id 3). -/
theorem sort_stability_and_time_priority :
    (∀ (l : List DecEntry) (p : Nat),
      (sortDescending l).filter (fun e => e.price == p) =
        l.filter (fun e => e.price == p)) ∧
    (∀ (l : List DecEntry) (p : Nat),
      (sortAscending l).filter (fun e => e.price == p) =
        l.filter (fun e => e.price == p)) ∧
    timePriorityResult.trades.head? =
      some { buyOrderId := 0, sellOrderId := 3, price := 9, amount := 5 } :=
  ⟨sortDescending_stable, sortAscending_stable, by decide⟩

/-- Every entry of the matching loop's current lists keeps a positive
remaining amount when it starts positive: the loop's clearing-price
accumulator always equals the price of the last recorded trade (or the
initial default when none is recorded), because with positive amounts
every examined crossing pair records a trade. -/
theorem matchLoop_clearingPrice_eq_lastTrade :
    ∀ (fuel : Nat) (acc : MatchAcc) (buys sells : List DecEntry) (d : Nat),
      (∀ e ∈ buys, 0 < e.amount) → (∀ e ∈ sells, 0 < e.amount) →
      acc.clearingPrice = lastTradePriceD acc.trades d →
      (matchLoop fuel acc buys sells).1.clearingPrice =
        lastTradePriceD (matchLoop fuel acc buys sells).1.trades d := by
  intro fuel
  induction fuel with
  | zero =>
    intro acc buys sells d hb hs hcp
    match buys, sells with
    | [], sells => simpa [matchLoop] using hcp
    | b :: bs, [] => simpa [matchLoop] using hcp
    | b :: bs, s :: ss => simpa [matchLoop] using hcp
  | succ fuel ih =>
    intro acc buys sells d hb hs hcp
    match buys, sells with
    | [], sells => simpa [matchLoop] using hcp
    | b :: bs, [] => simpa [matchLoop] using hcp
    | b :: bs, s :: ss =>
      by_cases hlt : b.price < s.price
      · simpa [matchLoop, hlt] using hcp
      · have hbpos : 0 < b.amount := hb b (by simp)
        have hspos : 0 < s.amount := hs s (by simp)
        have hq : ¬ ((if b.amount < s.amount then b.amount else s.amount) = 0) := by
          split <;> omega
        simp only [matchLoop, if_neg hlt, if_neg hq]
        apply ih
        · intro e he
          by_cases hb0 :
              b.amount - (if b.amount < s.amount then b.amount else s.amount) = 0
          · rw [if_pos hb0] at he
            exact hb e (List.mem_cons_of_mem _ he)
          · rw [if_neg hb0] at he
            rcases List.mem_cons.mp he with rfl | he
            · exact Nat.pos_of_ne_zero hb0
            · exact hb e (List.mem_cons_of_mem _ he)
        · intro e he
          by_cases hs0 :
              s.amount - (if b.amount < s.amount then b.amount else s.amount) = 0
          · rw [if_pos hs0] at he
            exact hs e (List.mem_cons_of_mem _ he)
          · rw [if_neg hs0] at he
            rcases List.mem_cons.mp he with rfl | he
            · exact Nat.pos_of_ne_zero hs0
            · exact hs e (List.mem_cons_of_mem _ he)
        · simp [lastTradePriceD, List.getLast?_concat]

/-- Positivity of decrypted amounts carries over to the zipped
entries. -/
theorem toEntries_amount_pos {ids : List Nat} {dec : List (Nat × Nat)}
    (h : ∀ pa ∈ dec, 0 < pa.2) :
    ∀ e ∈ toEntries ids dec, 0 < e.amount := by
  intro e he
  simp only [toEntries, List.mem_map] at he
  obtain ⟨q, hq, rfl⟩ := he
  exact h q.2 (List.of_mem_zip hq).2

/-- C4 amended: when every decrypted quantity is positive (so no
degenerate zero-quantity crossing pair occurs), the Settlement
Record's clearing price equals the price of the round's last recorded
trade, and 0 when no trade was recorded.  (The counterexample shows
that a degenerate zero-quantity crossing pair still overwrites the
clearing-price accumulator without recording a trade, so in that case
the stored price can be a midpoint of an unrecorded pair and nonzero
with `totalTrades = 0`.) -/
theorem clearing_price_eq_last_trade_of_pos_amounts (s : PoolState)
    (buyDec sellDec : List (Nat × Nat)) (settlementId now : Nat)
    (hb : ∀ pa ∈ buyDec, 0 < pa.2) (hs : ∀ pa ∈ sellDec, 0 < pa.2) :
    ((onDecrypt s buyDec sellDec settlementId now).state.settlements
        settlementId).clearingPrice =
      lastTradePriceD (onDecrypt s buyDec sellDec settlementId now).trades 0 := by
  have hb' : ∀ e ∈ sortDescending (toEntries s.pendingBuyOrderIds buyDec),
      0 < e.amount :=
    fun e he => toEntries_amount_pos hb e (mem_sortDescending.mp he)
  have hs' : ∀ e ∈ sortAscending (toEntries s.pendingSellOrderIds sellDec),
      0 < e.amount :=
    fun e he => toEntries_amount_pos hs e (mem_sortAscending.mp he)
  have key := matchLoop_clearingPrice_eq_lastTrade
    ((sortDescending (toEntries s.pendingBuyOrderIds buyDec)).length +
      (sortAscending (toEntries s.pendingSellOrderIds sellDec)).length)
    { orders := s.orders, clearingPrice := 0, totalMatchedVolume := 0,
      totalTrades := 0, matchedIds := [], trades := [], outBase := [],
      outQuote := [] }
    (sortDescending (toEntries s.pendingBuyOrderIds buyDec))
    (sortAscending (toEntries s.pendingSellOrderIds sellDec))
    0 hb' hs' rfl
  simpa only [onDecrypt, Function.update_same] using key

/-- C4 amended witness: on the time-priority round (all quantities 5,
hence positive) the stored clearing price is the last trade's price. -/
theorem clearing_price_eq_last_trade_witness :
    ((onDecrypt stateTimePriority [(10, 5), (10, 5), (8, 5)] [(9, 5), (10, 5)]
        0 0).state.settlements 0).clearingPrice =
      lastTradePriceD (onDecrypt stateTimePriority [(10, 5), (10, 5), (8, 5)]
        [(9, 5), (10, 5)] 0 0).trades 0 :=
  clearing_price_eq_last_trade_of_pos_amounts stateTimePriority
    [(10, 5), (10, 5), (8, 5)] [(9, 5), (10, 5)] 0 0 (by decide) (by decide)

end ShadowPool
